import Mathlib

set_option linter.unusedVariables false

/-!
Verification development for the minrpc repository (a minimal synchronous
RPC layer: `src/minrpc/connection.py`, `client.py`, `service.py`, `ipc.py`).

The Python code is shallowly embedded:
* the byte-level socket is a list of arrival chunks (`List (List Nat)`);
* serialization (Python's `pickle`, an external standard-library facility)
  is modelled by an executable injective encoder/decoder pair over a model
  `PyObj` of serializable Python values;
* the message-level connection (`SerializedSocket`) used by `Client` and
  `Service` is a record holding the underlying descriptor value and the
  list of messages written so far; fallible I/O takes the outcome of each
  send/receive as an explicit environment argument;
* Python exceptions are an enumeration `Exc`; an `except (A, B)` clause is
  a Boolean predicate on `Exc`.
-/

namespace Minrpc

/-- Python exception classes relevant to minrpc.  In Python 3, `IOError` is an
alias of `OSError`; `ProcessLookupError` and `ChildProcessError` are disjoint
subclasses of `OSError`; `KeyboardInterrupt` is not a subclass of `Exception`. -/
inductive Exc where
  | eofError
  | osError
  | valueError
  | processLookupError
  | childProcessError
  | keyboardInterrupt
  | unpicklingError
  | attributeError
  | runtimeError
  | remoteProcessClosed
  | remoteProcessCrashed
  | remoteException
deriving DecidableEq

/-- Membership in the clause `except (IOError, EOFError, OSError, ValueError)`
used by `Client._request` (client.py line 133) and `Service._communicate`
(service.py line 66).  `ProcessLookupError` and `ChildProcessError` are
subclasses of `OSError`, so they are caught too. -/
def isTransportError : Exc → Bool
  | .eofError => true
  | .osError => true
  | .valueError => true
  | .processLookupError => true
  | .childProcessError => true
  | _ => false

/-- Membership in the clause `except (ValueError, OSError)` guarding
`Service._reply_data` (service.py line 93). -/
def isValueOrOSError : Exc → Bool
  | .osError => true
  | .valueError => true
  | .processLookupError => true
  | .childProcessError => true
  | _ => false

/-- True for exceptions the raw transport layer can produce.  The wrapper
errors `RemoteProcessClosed` / `RemoteProcessCrashed` and the synthesized
remote-exception type are raised only by `Client` itself, never by a socket
send/receive, so an I/O environment never yields them. -/
def excFromTransportLayer : Exc → Bool
  | .remoteProcessClosed => false
  | .remoteProcessCrashed => false
  | .remoteException => false
  | _ => true

/-! ## Byte-level socket model (connection.py, module level)

A connected stream socket is modelled as the list of chunks in which the
remaining bytes will arrive: `socket.recv(size)` returns a nonempty chunk of
at most `size` bytes while data remains, and `b''` once the peer has closed
the stream.  A well-formed stream has no empty chunks. -/

/-- One `socket.recv(size)` call: take at most `size` bytes from the front of
the stream, returning the bytes read and the remaining stream.  An exhausted
stream returns `[]` (Python `b''`), signalling end of stream. -/
def sock_recv (chunks : List (List Nat)) (size : Nat) : List Nat × List (List Nat) :=
  match chunks with
  | [] => ([], [])
  | c :: rest =>
    if c.length ≤ size then (c, rest)
    else (c.take size, c.drop size :: rest)

/-- All the bytes still to arrive on the stream, in order. -/
def streamBytes (sock : List (List Nat)) : List Nat := sock.flatten

/-- Number of bytes still to arrive. -/
def streamLen (sock : List (List Nat)) : Nat := (streamBytes sock).length

/-- A well-formed stream: real sockets never deliver an empty chunk except to
signal end of stream. -/
def wfStream (sock : List (List Nat)) : Bool := sock.all (fun c => !c.isEmpty)

/-- connection.py lines 82-91, module-level `recv(file, size)`: read a fixed
size buffer, looping on partial reads, raising `EOFError` when the stream ends
before `size` bytes were delivered.

```
parts = []
while size > 0:
    part = file.recv(size)
    if not part:
        raise EOFError
    parts.append(part)
    size -= len(part)
return b''.join(parts)
``` -/
def recv (sock : List (List Nat)) (size : Nat) : Except Exc (List Nat × List (List Nat)) :=
  if hsz : size = 0 then .ok ([], sock)
  else
    match hpr : sock_recv sock size with
    | (part, sock') =>
      if hp : part = [] then .error .eofError
      else
        match recv sock' (size - part.length) with
        | .ok (rest, sock'') => .ok (part ++ rest, sock'')
        | .error e => .error e
termination_by size
decreasing_by
  have h1 : 0 < part.length := List.length_pos.mpr hp
  omega

/-! ## Serializable values and the pickle model

`PyObj` models the Python values minrpc actually serializes (`None`, bools,
ints, strings as code-point sequences, byte strings, and tuples).

`pickle.dumps` / `pickle.loads` (connection.py lines 37-49) belong to the
Python standard library, not to this repository; they are modelled by the
executable encoder `encodeObj` / decoder `decodeObj` below, for which the
round-trip law — the only property of pickle the repository relies on — is
proved rather than assumed. -/

mutual

inductive PyObj where
  | pyNone : PyObj
  | pyBool : Bool → PyObj
  | pyInt : Int → PyObj
  | pyStr : List Nat → PyObj
  | pyBytes : List Nat → PyObj
  | pyTuple : PyObjList → PyObj

inductive PyObjList where
  | nil : PyObjList
  | cons : PyObj → PyObjList → PyObjList

end

deriving instance DecidableEq for PyObj, PyObjList

/-- Unbounded-natural encoding: `n` marker bytes (value 1) followed by a
terminator byte (value 0).  Every emitted byte is < 256; the encoding is
prefix-free and structurally computable. -/
def encNat (n : Nat) : List Nat := List.replicate n 1 ++ [0]

/-- Decoder for `encNat`. -/
def decNat : List Nat → Option (Nat × List Nat)
  | [] => Option.none
  | b :: r =>
    if b = 0 then some (0, r)
    else
      match decNat r with
      | some (n, r') => some (n + 1, r')
      | Option.none => Option.none

/-- Integer encoding: a sign byte followed by the magnitude. -/
def encInt : Int → List Nat
  | .ofNat n => 0 :: encNat n
  | .negSucc n => 1 :: encNat n

/-- Decoder for `encInt`. -/
def decInt : List Nat → Option (Int × List Nat)
  | 0 :: r => (decNat r).map (fun p => (Int.ofNat p.1, p.2))
  | 1 :: r => (decNat r).map (fun p => (Int.negSucc p.1, p.2))
  | _ => Option.none

/-- Encoding of a list of naturals (string code points), element-wise. -/
def encNats : List Nat → List Nat
  | [] => []
  | n :: ns => encNat n ++ encNats ns

/-- Decoder reading a known count of `encNat` items. -/
def decNats : Nat → List Nat → Option (List Nat × List Nat)
  | 0, l => some ([], l)
  | k + 1, l =>
    match decNat l with
    | some (n, r) =>
      match decNats k r with
      | some (ns, r') => some (n :: ns, r')
      | Option.none => Option.none
    | Option.none => Option.none

mutual

/-- Model of `pickle.dumps` at the structural level: a tag byte per value,
then the payload.  Tuples are encoded with a marker byte per element. -/
def encodeObj : PyObj → List Nat
  | .pyNone => [0]
  | .pyBool b => [1, if b then 1 else 0]
  | .pyInt i => 2 :: encInt i
  | .pyStr cs => 3 :: (encNat cs.length ++ encNats cs)
  | .pyBytes bs => 4 :: (encNat bs.length ++ bs)
  | .pyTuple xs => 5 :: encodeList xs

def encodeList : PyObjList → List Nat
  | .nil => [0]
  | .cons x xs => 1 :: (encodeObj x ++ encodeList xs)

end

mutual

/-- Decoder for `encodeObj`; `fuel` bounds the nesting depth explored. -/
def decodeObj : Nat → List Nat → Option (PyObj × List Nat)
  | 0, _ => Option.none
  | _ + 1, [] => Option.none
  | fuel + 1, t :: r =>
    if t = 0 then some (.pyNone, r)
    else if t = 1 then
      match r with
      | b :: r' =>
        if b = 1 then some (.pyBool true, r')
        else if b = 0 then some (.pyBool false, r')
        else Option.none
      | [] => Option.none
    else if t = 2 then (decInt r).map (fun p => (PyObj.pyInt p.1, p.2))
    else if t = 3 then
      match decNat r with
      | some (k, r') => (decNats k r').map (fun p => (PyObj.pyStr p.1, p.2))
      | Option.none => Option.none
    else if t = 4 then
      match decNat r with
      | some (k, r') =>
        if k ≤ r'.length then some (.pyBytes (r'.take k), r'.drop k) else Option.none
      | Option.none => Option.none
    else if t = 5 then (decodeList fuel r).map (fun p => (PyObj.pyTuple p.1, p.2))
    else Option.none

/-- Decoder for `encodeList`. -/
def decodeList : Nat → List Nat → Option (PyObjList × List Nat)
  | 0, _ => Option.none
  | _ + 1, 0 :: r => some (.nil, r)
  | fuel + 1, 1 :: r =>
    match decodeObj fuel r with
    | some (x, r') =>
      match decodeList fuel r' with
      | some (xs, r'') => some (.cons x xs, r'')
      | Option.none => Option.none
    | Option.none => Option.none
  | _ + 1, _ => Option.none

end

mutual

/-- Fuel sufficient for `decodeObj` to decode an encoded value. -/
def objFuel : PyObj → Nat
  | .pyTuple xs => listFuel xs + 1
  | _ => 1

/-- Fuel sufficient for `decodeList` to decode an encoded list. -/
def listFuel : PyObjList → Nat
  | .nil => 1
  | .cons x xs => max (objFuel x) (listFuel xs) + 1

end

/-- Model of `pickle.dumps(data, -1)` (connection.py line 47). -/
def pickle_dumps (v : PyObj) : List Nat := encodeObj v

/-- Model of `pickle.loads(payload)` (connection.py line 41): decode the exact
payload, failing (UnpicklingError) on garbage or trailing bytes. -/
def pickle_loads (l : List Nat) : Option PyObj :=
  match decodeObj l.length l with
  | some (v, []) => some v
  | _ => Option.none

/-! ## Frame codec (`SerializedSocket`, connection.py lines 30-79)

`HEADER = Struct("!L")`: a 4-byte big-endian unsigned length prefix. -/

/-- `HEADER.size` -/
def HEADER_size : Nat := 4

/-- `HEADER.pack(n)`: the four big-endian base-256 digits of `n`.
`struct.pack("!L", n)` raises for `n ≥ 2^32`, hence the `Option`. -/
def HEADER_pack (n : Nat) : Option (List Nat) :=
  if n < 2 ^ 32 then
    some [n / 2 ^ 24 % 256, n / 2 ^ 16 % 256, n / 2 ^ 8 % 256, n % 256]
  else Option.none

/-- `HEADER.unpack(bs)` on a 4-byte buffer. -/
def HEADER_unpack (bs : List Nat) : Nat :=
  match bs with
  | [a, b, c, d] => ((a * 256 + b) * 256 + c) * 256 + d
  | _ => 0

namespace SerializedSocket

/-- connection.py lines 43-49, `SerializedSocket.send`: serialize, prepend the
4-byte length, write head and payload as one write.  Returns the bytes put on
the wire, or `none` when `struct.pack` rejects an oversized payload. -/
def send (data : PyObj) : Option (List Nat) :=
  match HEADER_pack (pickle_dumps data).length with
  | some head => some (head ++ pickle_dumps data)
  | Option.none => Option.none

/-- connection.py lines 37-41, `SerializedSocket.recv`: read exactly 4 header
bytes, then exactly the announced number of payload bytes, then deserialize. -/
def recv (sock : List (List Nat)) : Except Exc (PyObj × List (List Nat)) :=
  match Minrpc.recv sock HEADER_size with
  | .error e => .error e
  | .ok (header, sock1) =>
    match Minrpc.recv sock1 (HEADER_unpack header) with
    | .error e => .error e
    | .ok (payload, sock2) =>
      match pickle_loads payload with
      | some v => .ok (v, sock2)
      | Option.none => .error .unpicklingError

end SerializedSocket

/-! ## Message-level transport

`Client` and `Service` use a `SerializedSocket` purely through `send`, `recv`,
`close`, `closed` and `send_fd`/`recv_fd`.  At this level a connection is a
record of the underlying descriptor value (`fileno()`, which Python sockets
report as `-1` once closed) and the messages written so far; the outcome of
each fallible send/receive is an explicit environment argument.  A message is
the `(kind, args)` pair both sides exchange. -/

/-- A `(kind, args)` message. -/
abbrev Msg := String × List PyObj

/-- Message-level view of one `SerializedSocket` endpoint. -/
structure Conn where
  fd : Int
  sent : List Msg
deriving DecidableEq

namespace Conn

/-- connection.py lines 68-70, `SerializedSocket.closed`: the connection is
closed iff `fileno()` reports `-1`. -/
def closed (c : Conn) : Bool := c.fd == -1

/-- connection.py lines 65-66, `SerializedSocket.close` (idempotent; a closed
Python socket reports `fileno() == -1`). -/
def close (c : Conn) : Conn := ⟨-1, c.sent⟩

/-- A message-level `SerializedSocket.send`: sending on a closed socket raises
`OSError` (EBADF); otherwise the environment decides whether the write
succeeds (appending the message to the wire) or raises. -/
def sendMsg (c : Conn) (m : Msg) (env : Option Exc) : Except Exc Conn :=
  if closed c then .error .osError
  else
    match env with
    | Option.none => .ok ⟨c.fd, c.sent ++ [m]⟩
    | some e => .error e

/-- A message-level `SerializedSocket.recv`: receiving on a closed socket
raises `OSError` (EBADF); otherwise the environment supplies the message read
or the exception raised. -/
def recvMsg (c : Conn) (env : Except Exc Msg) : Except Exc Msg :=
  if closed c then .error .osError else env

end Conn

/-! ## Operating-system process model (for `os.kill` / `os.waitpid` /
`os.fork` as used by client.py and service.py) -/

/-- What the OS currently knows about a process identifier. -/
inductive ProcStatus where
  | running
  | zombie
  | gone
deriving DecidableEq

/-- The process table, restricted to the worker processes the embedding
tracks.  Pids absent from the table are `gone`. -/
structure OSState where
  procs : List (Nat × ProcStatus)
deriving DecidableEq

namespace OSState

/-- Status lookup; unknown pids do not exist. -/
def status (os : OSState) (pid : Nat) : ProcStatus :=
  match os.procs.find? (fun p => p.1 == pid) with
  | some p => p.2
  | Option.none => .gone

/-- Update the status of a tracked pid. -/
def set (os : OSState) (pid : Nat) (st : ProcStatus) : OSState :=
  ⟨os.procs.map (fun p => if p.1 == pid then (p.1, st) else p)⟩

end OSState

/-- `os.kill(pid, sig)`: delivering a signal to a nonexistent (or already
reaped) process raises `ProcessLookupError` (ESRCH).  The workers tracked here
do not install a SIGTERM handler, so a delivered SIGTERM terminates the worker;
the eventual exit is modelled by marking the process a zombie at once. -/
def os_kill (os : OSState) (pid : Nat) (sig : Nat) : Except Exc OSState :=
  match os.status pid with
  | .gone => .error .processLookupError
  | _ => .ok (os.set pid .zombie)

/-- `os.waitpid(pid, 0)`: reap a child, blocking until it exits; waiting for a
pid that is not an unreaped child raises `ChildProcessError` (ECHILD).  Tracked
pids are children of the caller. -/
def os_waitpid (os : OSState) (pid : Nat) : Except Exc OSState :=
  match os.status pid with
  | .gone => .error .childProcessError
  | _ => .ok (os.set pid .gone)

/-! ## Client (client.py lines 40-164) -/

/-- client.py lines 52-57: the client state.  `_good` is the `self._good`
flag, `procPid` the optional worker pid (`self._proc_pid`).  The lock is not
modelled: execution here is strictly sequential and the default lock
(`NoLock`) is a no-op. -/
structure Client where
  conn : Conn
  _good : Bool
  procPid : Option Nat
deriving DecidableEq

namespace Client

/-- client.py lines 119-122, property `closed`. -/
def closed (c : Client) : Bool := Conn.closed c.conn

/-- client.py lines 68-72, `__bool__` / property `good`:
`self._good and not self.closed`. -/
def good (c : Client) : Bool := c._good && !(closed c)

/-- client.py lines 139-142, `_communicate`: transmit one message and wait
for the answer.  Returns the connection state reached together with either
the response or the exception raised. -/
def _communicate (conn : Conn) (m : Msg) (se : Option Exc) (re : Except Exc Msg) :
    Conn × Except Exc Msg :=
  match Conn.sendMsg conn m se with
  | .error e => (conn, .error e)
  | .ok conn' => (conn', Conn.recvMsg conn' re)

/-- client.py lines 144-160, `_dispatch` and its two handlers: a `data` reply
returns its payload; an `exception` reply raises a synthesized wrapper type
(modelled by the dedicated error `Exc.remoteException`, distinct from the
`RemoteProcess*` errors); anything else fails handler lookup / unpacking. -/
def _dispatch (resp : Msg) : Except Exc PyObj :=
  match resp with
  | ("data", [d]) => .ok d
  | ("exception", [_t, _m]) => .error .remoteException
  | _ => .error .attributeError

/-- client.py lines 124-137, `_request`:

```
with self._lock:
    if self.closed:
        raise RemoteProcessClosed()
    if not self._good:
        raise RemoteProcessCrashed()
    try:
        response = self._communicate((kind, args))
    except (IOError, EOFError, OSError, ValueError):
        self._good = False
        self._conn.close()
        raise RemoteProcessCrashed()
return self._dispatch(response)
```

Returns the client state reached and the outcome. -/
def _request (c : Client) (kind : String) (args : List PyObj)
    (se : Option Exc) (re : Except Exc Msg) : Client × Except Exc PyObj :=
  if closed c then (c, .error .remoteProcessClosed)
  else if !c._good then (c, .error .remoteProcessCrashed)
  else
    match _communicate c.conn (kind, args) se re with
    | (conn', .ok resp) => (⟨conn', c._good, c.procPid⟩, _dispatch resp)
    | (conn', .error e) =>
      if isTransportError e then
        (⟨Conn.close conn', false, c.procPid⟩, .error .remoteProcessCrashed)
      else (⟨conn', c._good, c.procPid⟩, .error e)

/-- Result of a `close()` call: the state reached and the exception the call
raised, if any. -/
structure CloseResult where
  client : Client
  os : OSState
  exc : Option Exc
deriving DecidableEq

/-- client.py lines 106-117, `close`:

```
if self.good:
    self._conn.send(('close', ()))
self._conn.close()
if self._proc_pid:
    try:
        os.kill(self._proc_pid, 15)
        os.waitpid(self._proc_pid, 0)
    except ChildProcessError:
        pass
```

Note the best-effort `send` is not guarded by a try/except, and the
`except` clause names `ChildProcessError` only.  `if self._proc_pid:` is
Python truthiness: both `None` and `0` skip the block. -/
def close (c : Client) (os : OSState) (se : Option Exc) : CloseResult :=
  match (if good c then Conn.sendMsg c.conn ("close", []) se else .ok c.conn) with
  | .error e => ⟨c, os, some e⟩
  | .ok conn1 =>
    let c2 : Client := ⟨Conn.close conn1, c._good, c.procPid⟩
    match c.procPid with
    | Option.none => ⟨c2, os, Option.none⟩
    | some pid =>
      if pid = 0 then ⟨c2, os, Option.none⟩
      else
        match os_kill os pid 15 with
        | .error e =>
          if e = .childProcessError then ⟨c2, os, Option.none⟩ else ⟨c2, os, some e⟩
        | .ok os1 =>
          match os_waitpid os1 pid with
          | .error e =>
            if e = .childProcessError then ⟨c2, os1, Option.none⟩ else ⟨c2, os1, some e⟩
          | .ok os2 => ⟨c2, os2, Option.none⟩

end Client

/-! ## Service (service.py lines 21-127) -/

/-- What one invocation of a request handler did: the connection state it left
behind (handlers such as `_dispatch_close` close the connection) together with
either the value returned or the exception raised.  For a raising handler,
`excType` models `sys.exc_info()[0]` and `traceText` the formatted stack trace
`"".join(traceback.format_exception(*exc_info))`. -/
inductive HandlerOutcome where
  | ret (conn : Conn) (v : PyObj)
  | raises (conn : Conn) (excType : PyObj) (traceText : List Nat)

namespace Service

/-- service.py lines 120-122, `_reply_data`. -/
def _reply_data (conn : Conn) (v : PyObj) (se : Option Exc) : Except Exc Conn :=
  Conn.sendMsg conn ("data", [v]) se

/-- service.py lines 124-127, `_reply_exception`: send
`('exception', (exc_info[0], message))` where `message` is the formatted
trace text. -/
def _reply_exception (conn : Conn) (ty : PyObj) (trace : List Nat) (se : Option Exc) :
    Except Exc Conn :=
  Conn.sendMsg conn ("exception", [ty, .pyStr trace]) se

/-- service.py lines 78-97, `_dispatch`, after the handler has run (handler
resolution and invocation are abstracted into `HandlerOutcome`):

```
try:
    response = handler(*args)
except Exception:
    self._reply_exception(sys.exc_info())
else:
    try:
        self._reply_data(response)
    except (ValueError, OSError):
        if self._conn.closed():
            return False
        raise
return True
```

Returns the connection state reached and either the should-continue flag or
the exception propagating out of `_dispatch`.  Note the
`except (ValueError, OSError)` / `closed()` recovery wraps only the *data*
reply; a failure while sending the *exception* reply always propagates. -/
def _dispatch (hb : HandlerOutcome) (se : Option Exc) : Conn × Except Exc Bool :=
  match hb with
  | .raises conn ty trace =>
    match _reply_exception conn ty trace se with
    | .ok conn' => (conn', .ok true)
    | .error e => (conn, .error e)
  | .ret conn v =>
    match _reply_data conn v se with
    | .ok conn' => (conn', .ok true)
    | .error e =>
      if isValueOrOSError e then
        if Conn.closed conn then (conn, .ok false) else (conn, .error e)
      else (conn, .error e)

/-- service.py lines 58-76, `_communicate`: receive and serve one request.

```
try:
    request = self._conn.recv()
except (IOError, EOFError, OSError, ValueError):
    return False
except KeyboardInterrupt:
    return True
else:
    return self._dispatch(request)
```

`hb` maps the received request to what its handler does; `se` is the
environment for the reply send. -/
def _communicate (conn : Conn) (re : Except Exc Msg) (hb : Msg → HandlerOutcome)
    (se : Option Exc) : Conn × Except Exc Bool :=
  match Conn.recvMsg conn re with
  | .error e =>
    if isTransportError e then (conn, .ok false)
    else if e = .keyboardInterrupt then (conn, .ok true)
    else (conn, .error e)
  | .ok req => _dispatch (hb req) se

end Service

/-! ## The fork protocol (service.py lines 111-118, client.py lines 87-104) -/

/-- The constant `os.P_PID`: the `idtype` flag for `os.waitid`, whose value on
Linux (and other POSIX platforms) is `1`.  It does not depend on any process's
pid. -/
def os_P_PID : Nat := 1

/-- Embed a Lean string as a Python `str` value (its code points). -/
def pyOfString (s : String) : PyObj := .pyStr (s.data.map Char.toNat)

/-- Decimal-digit parser over code points (48–57), the relevant behaviour of
Python's `int(...)` on the strings the fork protocol passes. -/
def parseDecimal : List Nat → Nat → Option Nat
  | [], acc => some acc
  | c :: r, acc =>
    if 48 ≤ c ∧ c ≤ 57 then parseDecimal r (acc * 10 + (c - 48)) else Option.none

/-- Python `int(v)` on the values the fork protocol passes: parse a decimal
string (or keep an int). -/
def py_int_of (v : PyObj) : Option Int :=
  match v with
  | .pyInt n => some n
  | .pyStr [] => Option.none
  | .pyStr cs => (parseDecimal cs 0).map Int.ofNat
  | _ => Option.none

/-- service.py line 117: in the duplicated (child) process, `_dispatch_fork`
returns `str(os.P_PID)`, which `_dispatch` sends back as a `data` reply on the
child's new connection.  `childPid` is the duplicate's actual pid; note that
the returned value does not depend on it. -/
def fork_child_reply (childPid : Nat) : Msg :=
  ("data", [pyOfString (toString os_P_PID)])

/-- service.py line 118: in the original process, `_dispatch_fork` returns
`"ready"`, sent back as a `data` reply on the original connection. -/
def fork_parent_reply : Msg := ("data", [pyOfString "ready"])

/-- client.py lines 96-104, the tail of `fork_client`: read
`_, (new_pid,) = new_socket_local.recv()` from the new socket — this is the
duplicate's `data` reply — and store `int(new_pid)` as the new `Client`'s
`proc_pid`. -/
def fork_client_stored_pid (childPid : Nat) : Option Int :=
  match fork_child_reply childPid with
  | ("data", [v]) => py_int_of v
  | _ => Option.none

/-! ## Descriptor cleanup (ipc.py lines 63-73) -/

/-- `os.closerange(lo, hi)`: the descriptors `lo, lo+1, …, hi-1`. -/
def closerange (lo hi : Int) : List Int :=
  (List.range (hi - lo).toNat).map (fun i : Nat => lo + (i : Int))

/-- Insertion into a strictly sorted list, dropping duplicates: the effect of
Python's `sorted(set(…))` is obtained by folding this over the input. -/
def insertSorted (x : Int) : List Int → List Int
  | [] => [x]
  | y :: ys =>
    if x < y then x :: y :: ys
    else if x = y then y :: ys
    else y :: insertSorted x ys

/-- `sorted(set(l))`. -/
def sortedDedup (l : List Int) : List Int := l.foldr insertSorted []

/-- ipc.py lines 70-73: close each contiguous gap between consecutive kept
descriptors:

```
for s, e in zip(keep[:-1], keep[1:]):
    if s+1 < e:
        os.closerange(s+1, e)
``` -/
def closeGaps : List Int → List Int
  | s :: e :: rest => (if s + 1 < e then closerange (s + 1) e else []) ++ closeGaps (e :: rest)
  | _ => []

/-- ipc.py lines 63-73, `close_all_but(keep)` with `get_max_fd()` passed in as
`max_fd`: the list of descriptors the call closes.

```
keep = sorted(set([-1] + keep + [get_max_fd()]))
for s, e in zip(keep[:-1], keep[1:]):
    if s+1 < e:
        os.closerange(s+1, e)
```

(The initial `gc.collect()` only releases unreachable file objects and does
not affect which descriptors the loop closes.) -/
def close_all_but (max_fd : Int) (keep : List Int) : List Int :=
  closeGaps (sortedDedup ((-1) :: (keep ++ [max_fd])))

/-! # Theorems

## Codec round-trip lemmas -/

theorem decNat_encNat (n : Nat) : ∀ rest, decNat (encNat n ++ rest) = some (n, rest) := by
  induction n with
  | zero => intro rest; simp [encNat, decNat]
  | succ n ih =>
    intro rest
    simp only [encNat, List.replicate_succ, List.cons_append, decNat, if_neg one_ne_zero]
    have hre : ((List.replicate n 1).append [0]).append rest = encNat n ++ rest := rfl
    rw [hre, ih rest]

theorem decInt_encInt (i : Int) (rest : List Nat) : decInt (encInt i ++ rest) = some (i, rest) := by
  cases i with
  | ofNat n => simp [encInt, decInt, decNat_encNat]
  | negSucc n => simp [encInt, decInt, decNat_encNat]

theorem decNats_encNats (cs : List Nat) :
    ∀ rest, decNats cs.length (encNats cs ++ rest) = some (cs, rest) := by
  induction cs with
  | nil => intro rest; simp [encNats, decNats]
  | cons c cs ih =>
    intro rest
    simp only [encNats, List.length_cons, List.append_assoc, decNats, decNat_encNat, ih]

theorem objFuel_pos (v : PyObj) : 1 ≤ objFuel v := by
  cases v <;> simp [objFuel]

theorem listFuel_pos (xs : PyObjList) : 1 ≤ listFuel xs := by
  cases xs <;> simp [listFuel]

mutual

theorem decodeObj_encodeObj : ∀ (v : PyObj) (fuel : Nat) (rest : List Nat),
    objFuel v ≤ fuel → decodeObj fuel (encodeObj v ++ rest) = some (v, rest)
  | v, 0, rest, h => by exact absurd (le_trans (objFuel_pos v) h) (by omega)
  | v, fuel + 1, rest, h => by
    cases v with
    | pyNone => simp [encodeObj, decodeObj]
    | pyBool b => cases b <;> simp [encodeObj, decodeObj]
    | pyInt i => simp [encodeObj, decodeObj, decInt_encInt]
    | pyStr cs => simp [encodeObj, decodeObj, decNat_encNat, decNats_encNats]
    | pyBytes bs =>
      simp [encodeObj, decodeObj, decNat_encNat, List.take_left, List.drop_left,
        Nat.le_add_right]
    | pyTuple xs =>
      have h' : listFuel xs ≤ fuel := by
        have : objFuel (PyObj.pyTuple xs) = listFuel xs + 1 := by simp [objFuel]
        omega
      have hrec := decodeList_encodeList xs fuel rest h'
      simp [encodeObj, decodeObj, hrec]

theorem decodeList_encodeList : ∀ (xs : PyObjList) (fuel : Nat) (rest : List Nat),
    listFuel xs ≤ fuel → decodeList fuel (encodeList xs ++ rest) = some (xs, rest)
  | xs, 0, rest, h => by exact absurd (le_trans (listFuel_pos xs) h) (by omega)
  | .nil, fuel + 1, rest, h => by simp [encodeList, decodeList]
  | .cons x xs, fuel + 1, rest, h => by
    have hm : listFuel (PyObjList.cons x xs) = max (objFuel x) (listFuel xs) + 1 := by
      simp [listFuel]
    have h1 : objFuel x ≤ fuel := by omega
    have h2 : listFuel xs ≤ fuel := by omega
    have hx := decodeObj_encodeObj x fuel (encodeList xs ++ rest) h1
    have hxs := decodeList_encodeList xs fuel rest h2
    simp [encodeList, decodeList, hx, hxs]

end

mutual

theorem objFuel_le_length : ∀ v : PyObj, objFuel v ≤ (encodeObj v).length
  | .pyNone => by simp [objFuel, encodeObj]
  | .pyBool b => by simp [objFuel, encodeObj]
  | .pyInt i => by simp [objFuel, encodeObj]
  | .pyStr cs => by simp [objFuel, encodeObj]
  | .pyBytes bs => by simp [objFuel, encodeObj]
  | .pyTuple xs => by
    have := listFuel_le_length xs
    simp [objFuel, encodeObj]
    omega

theorem listFuel_le_length : ∀ xs : PyObjList, listFuel xs ≤ (encodeList xs).length
  | .nil => by simp [listFuel, encodeList]
  | .cons x xs => by
    have h1 := objFuel_le_length x
    have h2 := listFuel_le_length xs
    simp [listFuel, encodeList]
    omega

end

/-- The pickle model round-trips: the only property of serialization the
repository relies on. -/
theorem pickle_loads_dumps (v : PyObj) : pickle_loads (pickle_dumps v) = some v := by
  have h1 : objFuel v ≤ (encodeObj v).length := objFuel_le_length v
  have h2 := decodeObj_encodeObj v (encodeObj v).length [] h1
  rw [List.append_nil] at h2
  simp [pickle_loads, pickle_dumps, h2]

/-! ## Fixed-size read lemmas -/

theorem wfStream_cons {c : List Nat} {rest : List (List Nat)} (h : wfStream (c :: rest) = true) :
    c ≠ [] ∧ wfStream rest = true := by
  simp only [wfStream, List.all_cons, Bool.and_eq_true, Bool.not_eq_true'] at h
  exact ⟨by simpa [List.isEmpty_iff] using h.1, h.2⟩

theorem streamBytes_cons (c : List Nat) (rest : List (List Nat)) :
    streamBytes (c :: rest) = c ++ streamBytes rest := by
  simp [streamBytes]

/-- Shared workhorse for the fixed-size read `recv(file, size)`: with enough
bytes on a well-formed stream it returns exactly the first `size` bytes and a
well-formed remainder carrying the rest; with fewer bytes it raises
`EOFError`. -/
theorem recv_aux : ∀ (size : Nat) (sock : List (List Nat)), wfStream sock = true →
    (streamLen sock < size → recv sock size = .error .eofError)
    ∧ (size ≤ streamLen sock →
      ∃ sock', recv sock size = .ok ((streamBytes sock).take size, sock')
        ∧ wfStream sock' = true
        ∧ streamBytes sock' = (streamBytes sock).drop size) := by
  intro size
  induction size using Nat.strong_induction_on with
  | _ size ih =>
    intro sock hwf
    by_cases hsz : size = 0
    · subst hsz
      refine ⟨fun h => absurd h (by omega), fun h => ⟨sock, ?_, hwf, by simp⟩⟩
      rw [recv]
      simp
    · cases sock with
      | nil =>
        refine ⟨fun h => ?_, fun h => ?_⟩
        · rw [recv]; simp [hsz, sock_recv]
        · exfalso
          simp [streamLen, streamBytes] at h
          omega
      | cons c rest =>
        obtain ⟨hc, hwr⟩ := wfStream_cons hwf
        have hcpos : 0 < c.length := List.length_pos.mpr hc
        have hlenEq : streamLen (c :: rest) = c.length + streamLen rest := by
          simp [streamLen, streamBytes_cons]
        by_cases hcl : c.length ≤ size
        · have hlt : size - c.length < size := by omega
          obtain ⟨ihEof, ihOk⟩ := ih (size - c.length) hlt rest hwr
          refine ⟨fun h => ?_, fun h => ?_⟩
          · have h' : streamLen rest < size - c.length := by omega
            rw [recv]
            simp only [hsz, dite_false, sock_recv, hcl, if_true, hc, dite_false]
            rw [ihEof h']
          · have h' : size - c.length ≤ streamLen rest := by omega
            obtain ⟨s', hok, hwf', hb⟩ := ihOk h'
            refine ⟨s', ?_, hwf', ?_⟩
            · rw [recv]
              simp only [hsz, dite_false, sock_recv, hcl, if_true, hc, dite_false]
              rw [hok]
              rw [streamBytes_cons, List.take_append_eq_append_take,
                List.take_of_length_le hcl]
            · rw [hb, streamBytes_cons, List.drop_append_eq_append_drop,
                List.drop_eq_nil_of_le hcl, List.nil_append]
        · have hts : (c.take size).length = size := by
            rw [List.length_take]; omega
          have htne : c.take size ≠ [] := by
            intro hcon
            rw [hcon] at hts
            simp at hts
            omega
          refine ⟨fun h => ?_, fun h => ?_⟩
          · exfalso; omega
          · have hdne : c.drop size ≠ [] := by
              intro hcon
              have := congrArg List.length hcon
              simp at this
              omega
            have h0 : size - c.length = 0 := by omega
            refine ⟨c.drop size :: rest, ?_, ?_, ?_⟩
            · rw [recv]
              simp only [hsz, dite_false, sock_recv, hcl, if_false, htne, dite_false]
              rw [hts]
              have hz : size - size = 0 := by omega
              rw [hz, recv]
              simp only [dite_true]
              rw [streamBytes_cons, List.take_append_eq_append_take, h0]
              simp
            · simp only [wfStream, List.all_cons, Bool.and_eq_true, Bool.not_eq_true']
              refine ⟨by simp [List.isEmpty_iff, hdne], ?_⟩
              simpa [wfStream] using hwr
            · rw [streamBytes_cons, streamBytes_cons, List.drop_append_eq_append_drop, h0]
              simp

theorem wf_streamBytes_nil {sock : List (List Nat)} (hwf : wfStream sock = true)
    (hb : streamBytes sock = []) : sock = [] := by
  cases sock with
  | nil => rfl
  | cons c rest =>
    obtain ⟨hc, _⟩ := wfStream_cons hwf
    rw [streamBytes_cons] at hb
    exact absurd (List.append_eq_nil.mp hb).1 hc

theorem encodeObj_ne_nil (v : PyObj) : encodeObj v ≠ [] := by
  cases v <;> simp [encodeObj]

/-- A full frame `head ++ payload` arriving on the stream is read back by
`SerializedSocket.recv` as the deserialized payload, consuming the stream. -/
theorem serializedSocket_recv_frame (v : PyObj) (p head : List Nat)
    (hhl : head.length = HEADER_size) (hunp : HEADER_unpack head = p.length)
    (hpne : p ≠ []) (hload : pickle_loads p = some v) :
    SerializedSocket.recv [head ++ p] = .ok (v, []) := by
  have hppos : 0 < p.length := List.length_pos.mpr hpne
  have hfne : head ++ p ≠ [] := by
    simp [List.append_eq_nil, hpne]
  have hwfF : wfStream [head ++ p] = true := by
    simp [wfStream, List.isEmpty_iff, hfne]
  have hbytes : streamBytes [head ++ p] = head ++ p := by
    simp [streamBytes]
  have hlen : streamLen [head ++ p] = HEADER_size + p.length := by
    simp [streamLen, hbytes, hhl]
  obtain ⟨s1, hok1, hwf1, hb1⟩ :=
    (recv_aux HEADER_size [head ++ p] hwfF).2 (by omega)
  have htake : (streamBytes [head ++ p]).take HEADER_size = head := by
    rw [hbytes, ← hhl, List.take_left]
  have hdrop : streamBytes s1 = p := by
    rw [hb1, hbytes, ← hhl, List.drop_left]
  have hs1len : streamLen s1 = p.length := by simp [streamLen, hdrop]
  obtain ⟨s2, hok2, hwf2, hb2⟩ := (recv_aux p.length s1 hwf1).2 (by omega)
  have hs2 : s2 = [] := wf_streamBytes_nil hwf2 (by rw [hb2, hdrop]; simp)
  rw [htake] at hok1
  have htake2 : (streamBytes s1).take p.length = p := by
    rw [hdrop, List.take_length]
  rw [htake2, hs2] at hok2
  simp only [SerializedSocket.recv, hok1, hunp, hok2, hload]

/-- Claim C6: the fixed-size read `recv(file, size)` (connection.py lines
82-91) returns exactly the requested number of bytes — the first `size` bytes
of the stream — for every fragmentation of the incoming data into partial
reads, and raises `EOFError` when the peer closes the stream (here: the
stream runs out) before the full count has been delivered. -/
theorem recv_fixed_size_spec (sock : List (List Nat)) (size : Nat)
    (hwf : wfStream sock = true) :
    (streamLen sock < size → recv sock size = .error .eofError)
    ∧ (size ≤ streamLen sock →
      ∃ sock', recv sock size = .ok ((streamBytes sock).take size, sock')
        ∧ ((streamBytes sock).take size).length = size
        ∧ wfStream sock' = true
        ∧ streamBytes sock' = (streamBytes sock).drop size) := by
  obtain ⟨h1, h2⟩ := recv_aux size sock hwf
  refine ⟨h1, fun h => ?_⟩
  obtain ⟨s', hok, hwf', hb⟩ := h2 h
  refine ⟨s', hok, ?_, hwf', hb⟩
  rw [List.length_take]
  simp only [streamLen] at h
  omega

/-- Witness for C6 on a concrete fragmented stream. -/
theorem recv_fixed_size_spec_witness :
    wfStream [[1], [2, 3]] = true
    ∧ ((streamLen [[1], [2, 3]] < 2 → recv [[1], [2, 3]] 2 = .error .eofError)
      ∧ (2 ≤ streamLen [[1], [2, 3]] →
        ∃ sock', recv [[1], [2, 3]] 2 = .ok ((streamBytes [[1], [2, 3]]).take 2, sock')
          ∧ ((streamBytes [[1], [2, 3]]).take 2).length = 2
          ∧ wfStream sock' = true
          ∧ streamBytes sock' = (streamBytes [[1], [2, 3]]).drop 2)) :=
  ⟨by decide, recv_fixed_size_spec [[1], [2, 3]] 2 (by decide)⟩

/-- Claim C5: the frame codec round-trips.  For every serializable value `v`
(whose serialization fits the unsigned 32-bit length field `struct` enforces),
`send(v)` (connection.py lines 43-49) writes a frame whose 4-byte big-endian
length prefix decodes to the exact byte count of the serialized payload that
follows it, and `recv()` executed on the peer end of the stream
(connection.py lines 37-41) returns a value equal to `v`. -/
theorem send_recv_roundtrip (v : PyObj) (hfit : (pickle_dumps v).length < 2 ^ 32) :
    ∃ head, HEADER_pack (pickle_dumps v).length = some head
      ∧ SerializedSocket.send v = some (head ++ pickle_dumps v)
      ∧ head.length = HEADER_size
      ∧ HEADER_unpack head = (pickle_dumps v).length
      ∧ SerializedSocket.recv [head ++ pickle_dumps v] = .ok (v, []) := by
  have hunp : HEADER_unpack [(pickle_dumps v).length / 2 ^ 24 % 256,
      (pickle_dumps v).length / 2 ^ 16 % 256, (pickle_dumps v).length / 2 ^ 8 % 256,
      (pickle_dumps v).length % 256] = (pickle_dumps v).length := by
    simp only [HEADER_unpack]
    omega
  refine ⟨[(pickle_dumps v).length / 2 ^ 24 % 256, (pickle_dumps v).length / 2 ^ 16 % 256,
    (pickle_dumps v).length / 2 ^ 8 % 256, (pickle_dumps v).length % 256],
    ?_, ?_, rfl, hunp, ?_⟩
  · simp only [HEADER_pack]
    rw [if_pos hfit]
  · simp only [SerializedSocket.send, HEADER_pack]
    rw [if_pos hfit]
  · exact serializedSocket_recv_frame v (pickle_dumps v) _ rfl hunp
      (encodeObj_ne_nil v) (pickle_loads_dumps v)

/-- Witness for C5 at a concrete value. -/
theorem send_recv_roundtrip_witness :
    (pickle_dumps (PyObj.pyTuple (.cons (.pyStr [2]) (.cons (.pyInt (-1)) .nil)))).length < 2 ^ 32
    ∧ ∃ head, HEADER_pack (pickle_dumps (PyObj.pyTuple (.cons (.pyStr [2]) (.cons (.pyInt (-1)) .nil)))).length = some head
      ∧ SerializedSocket.send (PyObj.pyTuple (.cons (.pyStr [2]) (.cons (.pyInt (-1)) .nil)))
          = some (head ++ pickle_dumps (PyObj.pyTuple (.cons (.pyStr [2]) (.cons (.pyInt (-1)) .nil))))
      ∧ head.length = HEADER_size
      ∧ HEADER_unpack head = (pickle_dumps (PyObj.pyTuple (.cons (.pyStr [2]) (.cons (.pyInt (-1)) .nil)))).length
      ∧ SerializedSocket.recv [head ++ pickle_dumps (PyObj.pyTuple (.cons (.pyStr [2]) (.cons (.pyInt (-1)) .nil)))]
          = .ok (PyObj.pyTuple (.cons (.pyStr [2]) (.cons (.pyInt (-1)) .nil)), []) :=
  ⟨by decide, send_recv_roundtrip (PyObj.pyTuple (.cons (.pyStr [2]) (.cons (.pyInt (-1)) .nil))) (by decide)⟩

/-! ## Client lemmas -/

/-- An `Open` client: the `good` property holds iff the `_good` flag is set
and the transport is not closed. -/
theorem good_iff (c : Client) :
    Client.good c = true ↔ c._good = true ∧ Conn.closed c.conn = false := by
  simp [Client.good, Client.closed, Bool.and_eq_true, Bool.not_eq_true']

/-- `Client._dispatch` never raises `RemoteProcessCrashed`: replies either
deliver data, raise the synthesized remote-exception wrapper, or fail handler
lookup. -/
theorem dispatch_ne_crashed (resp : Msg) :
    Client._dispatch resp ≠ .error .remoteProcessCrashed := by
  unfold Client._dispatch
  split <;> simp

/-- Whenever `close()`'s initial best-effort send does not raise, the client
it leaves behind has a closed transport. -/
theorem close_client_closed (c : Client) (os : OSState) (se : Option Exc)
    (h : ∃ conn1, (if Client.good c then Conn.sendMsg c.conn ("close", []) se
      else .ok c.conn) = .ok conn1) :
    Client.closed (Client.close c os se).client = true := by
  obtain ⟨conn1, h⟩ := h
  simp only [Client.close, h]
  cases c.procPid with
  | none => simp [Client.closed, Conn.closed, Conn.close]
  | some pid =>
    by_cases hp : pid = 0
    · simp [hp, Client.closed, Conn.closed, Conn.close]
    · simp only [hp, if_false]
      rcases hk : os_kill os pid 15 with e | os1
      · simp only [hk]
        split <;> simp [Client.closed, Conn.closed, Conn.close]
      · simp only [hk]
        rcases hw : os_waitpid os1 pid with e | os2
        · simp only [hw]
          split <;> simp [Client.closed, Conn.closed, Conn.close]
        · simp [hw, Client.closed, Conn.closed, Conn.close]

/-- Claim C4: any I/O failure from the `except (IOError, EOFError, OSError,
ValueError)` family raised while `_request` sends the request or receives the
reply on an Open client makes `_request` clear the good flag, close the
transport, and raise `RemoteProcessCrashed` to the current caller
(client.py lines 124-137). -/
theorem request_io_failure_crashes (c : Client) (k : String) (a : List PyObj)
    (se : Option Exc) (re : Except Exc Msg)
    (hopen : Client.good c = true)
    (hfail : (∃ e, se = some e ∧ isTransportError e = true)
      ∨ (se = Option.none ∧ ∃ e, re = .error e ∧ isTransportError e = true)) :
    (Client._request c k a se re).1._good = false
    ∧ Conn.closed (Client._request c k a se re).1.conn = true
    ∧ (Client._request c k a se re).2 = .error .remoteProcessCrashed := by
  obtain ⟨hg, hclc⟩ := (good_iff c).mp hopen
  have hfd : ¬ c.conn.fd = -1 := by simpa [Conn.closed] using hclc
  rcases hfail with ⟨e, hse, hte⟩ | ⟨hse, e, hre, hte⟩ <;> subst hse
  · simp [Client._request, Client.closed, Client._communicate, Conn.sendMsg, Conn.close,
      Conn.closed, hfd, hg, hte]
  · subst hre
    simp [Client._request, Client.closed, Client._communicate, Conn.sendMsg, Conn.recvMsg,
      Conn.close, Conn.closed, hfd, hg, hte]

/-- Witness for C4: a concrete Open client whose send raises `OSError`. -/
theorem request_io_failure_crashes_witness :
    Client.good ⟨⟨3, []⟩, true, Option.none⟩ = true
    ∧ ((Client._request ⟨⟨3, []⟩, true, Option.none⟩ "f" [] (some .osError)
          (.ok ("data", [.pyNone]))).1._good = false
      ∧ Conn.closed (Client._request ⟨⟨3, []⟩, true, Option.none⟩ "f" [] (some .osError)
          (.ok ("data", [.pyNone]))).1.conn = true
      ∧ (Client._request ⟨⟨3, []⟩, true, Option.none⟩ "f" [] (some .osError)
          (.ok ("data", [.pyNone]))).2 = .error .remoteProcessCrashed) :=
  ⟨by decide, request_io_failure_crashes ⟨⟨3, []⟩, true, Option.none⟩ "f" [] (some .osError)
    (.ok ("data", [.pyNone])) (by decide) (Or.inl ⟨.osError, rfl, rfl⟩)⟩

/-- Claim C3 counterexample: `close()` does not guard its best-effort close
notification, so on a still-good client whose peer is already gone the `send`
inside `close()` raises and the transport is never closed; a subsequent
`_request` then raises `RemoteProcessCrashed`, not `RemoteProcessClosed`.
So "after close() has been called, every `_request` raises
`RemoteProcessClosed`" is false as stated. -/
theorem request_after_failed_close_crashes :
    (Client.close ⟨⟨3, []⟩, true, Option.none⟩ ⟨[]⟩ (some .osError)).exc = some .osError
    ∧ (Client._request (Client.close ⟨⟨3, []⟩, true, Option.none⟩ ⟨[]⟩ (some .osError)).client
        "f" [] (some .osError) (.ok ("data", [.pyNone]))).2
      = .error .remoteProcessCrashed := by
  constructor <;> rfl

/-- Claim C3 (amended): for every client on which `close()` actually reached
the transport-close step — that is, whenever the best-effort close
notification did not raise, in particular whenever the client was already
non-good or the send succeeded — every subsequent `_request` raises
`RemoteProcessClosed`, never `RemoteProcessCrashed`, and leaves the client
(and hence the transport's sent-message log) unchanged: nothing is sent. -/
theorem request_after_close_raises_closed (c : Client) (os : OSState) (se : Option Exc)
    (hse : Client.good c = true → se = Option.none)
    (k : String) (a : List PyObj) (se' : Option Exc) (re' : Except Exc Msg) :
    Client._request (Client.close c os se).client k a se' re'
      = ((Client.close c os se).client, .error .remoteProcessClosed) := by
  have hok : ∃ conn1, (if Client.good c then Conn.sendMsg c.conn ("close", []) se
      else .ok c.conn) = .ok conn1 := by
    by_cases hg : Client.good c = true
    · obtain ⟨_, hclc⟩ := (good_iff c).mp hg
      have hfd : ¬ c.conn.fd = -1 := by simpa [Conn.closed] using hclc
      rw [hse hg]
      exact ⟨⟨c.conn.fd, c.conn.sent ++ [("close", [])]⟩,
        by simp [hg, Conn.sendMsg, Conn.closed, hfd]⟩
    · exact ⟨c.conn, by simp [hg]⟩
  have hconn := close_client_closed c os se hok
  simp [Client._request, hconn]

/-- Witness for C3's amended theorem on a concrete good client. -/
theorem request_after_close_raises_closed_witness :
    Client._request (Client.close ⟨⟨3, []⟩, true, Option.none⟩ ⟨[]⟩ Option.none).client
        "f" [] Option.none (.ok ("data", [.pyNone]))
      = ((Client.close ⟨⟨3, []⟩, true, Option.none⟩ ⟨[]⟩ Option.none).client,
        .error .remoteProcessClosed) :=
  request_after_close_raises_closed ⟨⟨3, []⟩, true, Option.none⟩ ⟨[]⟩ Option.none
    (fun _ => rfl) "f" [] Option.none (.ok ("data", [.pyNone]))

/-- Claim C2 (code bug): the first `close()` on a client holding its worker's
pid kills and reaps the worker; the second `close()` then calls
`os.kill` on the reaped pid, which raises `ProcessLookupError` — and the
`except ChildProcessError` clause (client.py lines 112-117) does not catch it,
so the second `close()` raises instead of being idempotent. -/
theorem close_second_call_raises_process_lookup :
    (Client.close ⟨⟨3, []⟩, true, some 100⟩ ⟨[(100, .running)]⟩ Option.none).exc = Option.none
    ∧ (Client.close
        (Client.close ⟨⟨3, []⟩, true, some 100⟩ ⟨[(100, .running)]⟩ Option.none).client
        (Client.close ⟨⟨3, []⟩, true, some 100⟩ ⟨[(100, .running)]⟩ Option.none).os
        Option.none).exc = some .processLookupError := by
  constructor <;> rfl

/-- Claim C10: once a `_request` on a client with its `_good` flag still set
has failed with `RemoteProcessCrashed`, every subsequent `_request` on the
resulting client raises `RemoteProcessClosed`, never `RemoteProcessCrashed`:
the crash handler closed the transport and `_request` checks `closed` before
the good flag.  The environment hypothesis records that socket operations
raise I/O-layer exceptions, not the client's own wrapper errors. -/
theorem request_after_crash_raises_closed (c : Client) (k k' : String) (a a' : List PyObj)
    (se se' : Option Exc) (re re' : Except Exc Msg)
    (hg : c._good = true)
    (henvs : ∀ e, se = some e → excFromTransportLayer e = true)
    (henvr : ∀ e, re = .error e → excFromTransportLayer e = true)
    (hc : (Client._request c k a se re).2 = .error .remoteProcessCrashed) :
    Client._request (Client._request c k a se re).1 k' a' se' re'
      = ((Client._request c k a se re).1, .error .remoteProcessClosed) := by
  by_cases hcl : Client.closed c = true
  · simp [Client._request, hcl] at hc
  · have hfd : ¬ c.conn.fd = -1 := by simpa [Client.closed, Conn.closed] using hcl
    rcases se with _ | e
    · rcases re with e | resp
      · -- the receive raised `e`
        have he := henvr e rfl
        by_cases ht : isTransportError e = true
        · -- the crash path: transport closed, flag cleared
          have hreq : Client._request c k a Option.none (.error e)
              = (⟨⟨-1, c.conn.sent ++ [(k, a)]⟩, false, c.procPid⟩,
                .error .remoteProcessCrashed) := by
            simp [Client._request, Client.closed, Conn.closed, Conn.close, hfd, hg,
              Client._communicate, Conn.sendMsg, Conn.recvMsg, ht]
          rw [hreq]
          simp [Client._request, Client.closed, Conn.closed]
        · exfalso
          have hreq : (Client._request c k a Option.none (.error e)).2 = .error e := by
            simp [Client._request, Client.closed, Conn.closed, hfd, hg,
              Client._communicate, Conn.sendMsg, Conn.recvMsg, ht]
          rw [hreq] at hc
          injection hc with hc'
          subst hc'
          simp [excFromTransportLayer] at he
      · -- the receive succeeded: the outcome is `_dispatch`, never Crashed
        exfalso
        have hreq : (Client._request c k a Option.none (.ok resp)).2
            = Client._dispatch resp := by
          simp [Client._request, Client.closed, Conn.closed, hfd, hg,
            Client._communicate, Conn.sendMsg, Conn.recvMsg]
        rw [hreq] at hc
        exact dispatch_ne_crashed resp hc
    · -- the send raised `e`
      have he := henvs e rfl
      by_cases ht : isTransportError e = true
      · have hreq : Client._request c k a (some e) re
            = (⟨⟨-1, c.conn.sent⟩, false, c.procPid⟩, .error .remoteProcessCrashed) := by
          simp [Client._request, Client.closed, Conn.closed, Conn.close, hfd, hg,
            Client._communicate, Conn.sendMsg, ht]
        rw [hreq]
        simp [Client._request, Client.closed, Conn.closed]
      · exfalso
        have hreq : (Client._request c k a (some e) re).2 = .error e := by
          simp [Client._request, Client.closed, Conn.closed, hfd, hg,
            Client._communicate, Conn.sendMsg, ht]
        rw [hreq] at hc
        injection hc with hc'
        subst hc'
        simp [excFromTransportLayer] at he

/-- Witness for C10: a concrete crash (receive hits EOF) followed by a
request that reports Closed. -/
theorem request_after_crash_raises_closed_witness :
    (Client._request ⟨⟨3, []⟩, true, Option.none⟩ "f" [] Option.none (.error .eofError)).2
      = .error .remoteProcessCrashed
    ∧ Client._request
        (Client._request ⟨⟨3, []⟩, true, Option.none⟩ "f" [] Option.none (.error .eofError)).1
        "g" [] Option.none (.ok ("data", [.pyNone]))
      = ((Client._request ⟨⟨3, []⟩, true, Option.none⟩ "f" [] Option.none (.error .eofError)).1,
        .error .remoteProcessClosed) :=
  ⟨rfl, request_after_crash_raises_closed ⟨⟨3, []⟩, true, Option.none⟩ "f" "g" [] []
    Option.none Option.none (.error .eofError) (.ok ("data", [.pyNone])) rfl
    (fun e h => by cases h)
    (fun e h => by injection h with h2; subst h2; rfl) rfl⟩

/-! ## Service lemmas -/

/-- Claim C9: a `KeyboardInterrupt` raised while the service is blocked
receiving a request makes `_communicate` (service.py lines 58-76) return
`True`, so the `run` loop continues; among exceptions raised during the
receive, exactly the transport errors `(IOError, EOFError, OSError,
ValueError)` make `_communicate` return `False` and stop the loop. -/
theorem communicate_keyboard_interrupt_spec (conn : Conn) (hb : Msg → HandlerOutcome)
    (se : Option Exc) (e : Exc) (hopen : Conn.closed conn = false) :
    Service._communicate conn (.error .keyboardInterrupt) hb se = (conn, .ok true)
    ∧ ((Service._communicate conn (.error e) hb se).2 = .ok false
      ↔ isTransportError e = true) := by
  constructor
  · simp [Service._communicate, Conn.recvMsg, hopen, isTransportError]
  · by_cases ht : isTransportError e = true
    · simp [Service._communicate, Conn.recvMsg, hopen, ht]
    · by_cases hk : e = .keyboardInterrupt
      · subst hk
        simp [Service._communicate, Conn.recvMsg, hopen, isTransportError]
      · simp [Service._communicate, Conn.recvMsg, hopen, ht, hk]

/-- Witness for C9 on a concrete open connection. -/
theorem communicate_keyboard_interrupt_spec_witness :
    Service._communicate ⟨3, []⟩ (.error .keyboardInterrupt)
        (fun _ => .ret ⟨3, []⟩ .pyNone) Option.none = (⟨3, []⟩, .ok true)
    ∧ ((Service._communicate ⟨3, []⟩ (.error .eofError)
        (fun _ => .ret ⟨3, []⟩ .pyNone) Option.none).2 = .ok false
      ↔ isTransportError .eofError = true) :=
  communicate_keyboard_interrupt_spec ⟨3, []⟩ (fun _ => .ret ⟨3, []⟩ .pyNone)
    Option.none .eofError rfl

/-- Claim C8 counterexample: when a handler raises and the connection is
already closed, sending the exception reply fails and the failure propagates
out of `_dispatch` (service.py lines 86-89 have no recovery around
`_reply_exception`) — the loop does not stop silently with `False`. -/
theorem exception_reply_failure_fatal_on_closed :
    Service._dispatch (.raises ⟨-1, []⟩ .pyNone []) Option.none
      = (⟨-1, []⟩, .error .osError) := rfl

/-- Claim C8 (amended): when a handler raises, the service catches the
exception, captures the formatted trace text, and sends the
`('exception', (type, trace))` reply, leaving the loop running — provided that
send succeeds.  If sending the exception reply fails, the failure always
propagates out of `_dispatch` as fatal, even when the transport is already
closed; the silent stop on a closed transport applies only to *data*
replies. -/
theorem dispatch_exception_reply_spec (conn : Conn) (ty : PyObj) (trace : List Nat)
    (se : Option Exc) :
    (Conn.closed conn = false → se = Option.none →
      Service._dispatch (.raises conn ty trace) se
        = (⟨conn.fd, conn.sent ++ [("exception", [ty, .pyStr trace])]⟩, .ok true))
    ∧ (∀ e, Service._reply_exception conn ty trace se = .error e →
      Service._dispatch (.raises conn ty trace) se = (conn, .error e)) := by
  constructor
  · intro h1 h2
    subst h2
    simp [Service._dispatch, Service._reply_exception, Conn.sendMsg, h1]
  · intro e he
    simp [Service._dispatch, he]

/-- Witness for C8's amended theorem: a successful exception reply on an open
connection. -/
theorem dispatch_exception_reply_spec_witness :
    Service._dispatch (.raises ⟨3, []⟩ .pyNone [1]) Option.none
      = (⟨3, [("exception", [.pyNone, .pyStr [1]])]⟩, .ok true) :=
  (dispatch_exception_reply_spec ⟨3, []⟩ .pyNone [1] Option.none).1 rfl rfl

/-! ## Descriptor cleanup lemmas -/

theorem mem_insertSorted (x a : Int) : ∀ l : List Int,
    a ∈ insertSorted x l ↔ a = x ∨ a ∈ l := by
  intro l
  induction l with
  | nil => simp [insertSorted]
  | cons y ys ih =>
    simp only [insertSorted]
    by_cases h1 : x < y
    · rw [if_pos h1]
      simp only [List.mem_cons]
    · rw [if_neg h1]
      by_cases h2 : x = y
      · rw [if_pos h2]
        subst h2
        simp only [List.mem_cons]
        tauto
      · rw [if_neg h2]
        simp only [List.mem_cons, ih]
        tauto

theorem sorted_insertSorted (x : Int) : ∀ l : List Int,
    List.Sorted (· < ·) l → List.Sorted (· < ·) (insertSorted x l) := by
  intro l
  induction l with
  | nil => intro _; simp [insertSorted]
  | cons y ys ih =>
    intro hs
    rw [List.sorted_cons] at hs
    obtain ⟨hy, hys⟩ := hs
    simp only [insertSorted]
    by_cases h1 : x < y
    · rw [if_pos h1, List.sorted_cons]
      refine ⟨?_, ?_⟩
      · intro b hb
        rcases List.mem_cons.mp hb with rfl | hb
        · exact h1
        · exact lt_trans h1 (hy b hb)
      · rw [List.sorted_cons]
        exact ⟨hy, hys⟩
    · rw [if_neg h1]
      by_cases h2 : x = y
      · rw [if_pos h2, List.sorted_cons]
        exact ⟨hy, hys⟩
      · rw [if_neg h2, List.sorted_cons]
        refine ⟨?_, ih hys⟩
        intro b hb
        rcases (mem_insertSorted x b ys).mp hb with rfl | hb
        · omega
        · exact hy b hb

theorem sorted_sortedDedup (l : List Int) : List.Sorted (· < ·) (sortedDedup l) := by
  induction l with
  | nil => simp [sortedDedup]
  | cons x xs ih => exact sorted_insertSorted x _ ih

theorem mem_sortedDedup (a : Int) : ∀ l : List Int, a ∈ sortedDedup l ↔ a ∈ l := by
  intro l
  induction l with
  | nil => simp [sortedDedup]
  | cons x xs ih =>
    show a ∈ insertSorted x (sortedDedup xs) ↔ _
    rw [mem_insertSorted]
    simp [ih]

theorem mem_closerange (lo hi x : Int) : x ∈ closerange lo hi ↔ lo ≤ x ∧ x < hi := by
  constructor
  · intro hx
    obtain ⟨i, hi', hxe⟩ := List.mem_map.mp hx
    rw [List.mem_range] at hi'
    omega
  · rintro ⟨h1, h2⟩
    refine List.mem_map.mpr ⟨(x - lo).toNat, ?_, ?_⟩
    · rw [List.mem_range]
      omega
    · omega

theorem getLast?_mem : ∀ (l : List Int) (m : Int), l.getLast? = some m → m ∈ l := by
  intro l
  induction l with
  | nil => intro m h; cases h
  | cons a l ih =>
    intro m hm
    cases l with
    | nil =>
      rw [List.getLast?_singleton] at hm
      cases hm
      simp
    | cons b l' =>
      rw [List.getLast?_cons_cons] at hm
      exact List.mem_cons.mpr (Or.inr (ih m hm))

theorem sorted_le_getLast? : ∀ (l : List Int) (m : Int), List.Sorted (· < ·) l →
    l.getLast? = some m → ∀ y ∈ l, y ≤ m := by
  intro l
  induction l with
  | nil => intro m _ h; cases h
  | cons a l ih =>
    intro m hs hm y hy
    rw [List.sorted_cons] at hs
    cases l with
    | nil =>
      rw [List.getLast?_singleton] at hm
      cases hm
      simp at hy
      omega
    | cons b l' =>
      rw [List.getLast?_cons_cons] at hm
      rcases List.mem_cons.mp hy with rfl | hy'
      · have hb : y < b := hs.1 b (by simp)
        have hbm := ih m hs.2 hm b (by simp)
        omega
      · exact ih m hs.2 hm y hy'

/-- Membership in the union of the gap ranges of a sorted kept list: exactly
the values strictly between the first and last kept values that are not
themselves kept. -/
theorem mem_closeGaps : ∀ (tail : List Int) (s m x : Int),
    List.Sorted (· < ·) (s :: tail) → (s :: tail).getLast? = some m →
    (x ∈ closeGaps (s :: tail) ↔ (s < x ∧ x < m ∧ x ∉ s :: tail)) := by
  intro tail
  induction tail with
  | nil =>
    intro s m x hs hm
    rw [List.getLast?_singleton] at hm
    cases hm
    show x ∈ ([] : List Int) ↔ _
    refine iff_of_false (List.not_mem_nil x) ?_
    rintro ⟨h1, h2, _⟩
    omega
  | cons e rest ih =>
    intro s m x hs hm
    rw [List.sorted_cons] at hs
    obtain ⟨hsall, hrest⟩ := hs
    have hse : s < e := hsall e (by simp)
    rw [List.getLast?_cons_cons] at hm
    have heM : e ≤ m := sorted_le_getLast? (e :: rest) m hrest hm e (by simp)
    have hallrest : ∀ y ∈ rest, e < y := fun y hy => (List.sorted_cons.mp hrest).1 y hy
    have hIH := ih e m x hrest hm
    have hgap : x ∈ (if s + 1 < e then closerange (s + 1) e else []) ↔ (s + 1 ≤ x ∧ x < e) := by
      by_cases hlt : s + 1 < e
      · rw [if_pos hlt, mem_closerange]
      · rw [if_neg hlt]
        exact iff_of_false (List.not_mem_nil x) (by omega)
    rw [show closeGaps (s :: e :: rest)
        = (if s + 1 < e then closerange (s + 1) e else []) ++ closeGaps (e :: rest) from rfl]
    rw [List.mem_append, hgap, hIH]
    constructor
    · rintro (⟨h1, h2⟩ | ⟨h1, h2, h3⟩)
      · refine ⟨by omega, by omega, ?_⟩
        intro hmem
        rcases List.mem_cons.mp hmem with rfl | hmem
        · omega
        · rcases List.mem_cons.mp hmem with rfl | hmem
          · omega
          · have := hallrest x hmem
            omega
      · refine ⟨by omega, h2, ?_⟩
        intro hmem
        rcases List.mem_cons.mp hmem with rfl | hmem
        · omega
        · exact h3 hmem
    · rintro ⟨h1, h2, h3⟩
      have hxs : x ≠ s := fun hco => h3 (by simp [hco])
      have hxe : x ≠ e := fun hco => h3 (by simp [hco])
      have hxrest : x ∉ e :: rest := fun hco => h3 (List.mem_cons.mpr (Or.inr hco))
      by_cases hlt : x < e
      · left
        omega
      · right
        exact ⟨by omega, h2, hxrest⟩

/-- Claim C7 counterexample: with a kept descriptor above the platform
maximum, `close_all_but` closes descriptors *beyond* the maximum: for
`max_fd = 4` and `keep = [6]` it closes descriptor 5, although 5 is not below
the platform's maximum descriptor count.  So the claim's universal statement
— closing only gaps "from 0 up to the platform's maximum descriptor count" —
fails as stated. -/
theorem close_all_but_exceeds_max_fd :
    (5 : Int) ∈ close_all_but 4 [6] ∧ ¬((5 : Int) < 4) := by decide

/-- Claim C7 (amended): for every list of kept descriptors that are actual
descriptors of the process — nonnegative and below the platform's maximum
descriptor count — `close_all_but` closes exactly the descriptors in the
contiguous numeric gaps between the sorted kept descriptors from 0 up to the
platform's maximum descriptor count, and closes no kept descriptor:
a descriptor is closed iff it lies in `[0, max_fd)` and is not kept. -/
theorem close_all_but_spec (max_fd : Int) (keep : List Int) (fd : Int)
    (hmax : 0 ≤ max_fd) (hkeep : ∀ k ∈ keep, 0 ≤ k ∧ k < max_fd) :
    fd ∈ close_all_but max_fd keep ↔ (0 ≤ fd ∧ fd < max_fd ∧ fd ∉ keep) := by
  unfold close_all_but
  have hmem : ∀ a, a ∈ sortedDedup ((-1) :: (keep ++ [max_fd]))
      ↔ (a = -1 ∨ a ∈ keep ∨ a = max_fd) := by
    intro a
    rw [mem_sortedDedup]
    simp [List.mem_cons, List.mem_append]
  have hsorted := sorted_sortedDedup ((-1) :: (keep ++ [max_fd]))
  have hne : sortedDedup ((-1) :: (keep ++ [max_fd])) ≠ [] := by
    intro hco
    have := (hmem (-1)).mpr (Or.inl rfl)
    rw [hco] at this
    cases this
  rcases hsd : sortedDedup ((-1) :: (keep ++ [max_fd])) with _ | ⟨s, tail⟩
  · exact absurd hsd hne
  rw [hsd] at hmem hsorted
  have hsmem : s = -1 ∨ s ∈ keep ∨ s = max_fd := (hmem s).mp (by simp)
  have hsge : -1 ≤ s := by
    rcases hsmem with rfl | h | rfl
    · omega
    · have := (hkeep s h).1
      omega
    · omega
  have hneg1 : (-1 : Int) ∈ s :: tail := (hmem (-1)).mpr (Or.inl rfl)
  have hs : s = -1 := by
    rcases List.mem_cons.mp hneg1 with h | h
    · omega
    · have := (List.sorted_cons.mp hsorted).1 (-1) h
      omega
  obtain ⟨m, hm⟩ := Option.isSome_iff_exists.mp
    ((List.getLast?_isSome (l := s :: tail)).mpr (by simp))
  have hmmem : m = -1 ∨ m ∈ keep ∨ m = max_fd := (hmem m).mp (getLast?_mem _ m hm)
  have hmaxmem : max_fd ∈ s :: tail := (hmem max_fd).mpr (Or.inr (Or.inr rfl))
  have hmaxle : max_fd ≤ m := sorted_le_getLast? _ m hsorted hm max_fd hmaxmem
  have hmeq : m = max_fd := by
    rcases hmmem with rfl | h | rfl
    · omega
    · have := (hkeep m h).2
      omega
    · rfl
  subst hs
  rw [hmeq] at hm
  rw [mem_closeGaps tail (-1) max_fd fd hsorted hm]
  constructor
  · rintro ⟨h1, h2, h3⟩
    refine ⟨by omega, h2, fun hk => h3 ((hmem fd).mpr (Or.inr (Or.inl hk)))⟩
  · rintro ⟨h1, h2, h3⟩
    refine ⟨by omega, h2, ?_⟩
    rw [hmem fd]
    rintro (h | h | h)
    · omega
    · exact h3 h
    · omega

/-- Witness for C7's amended theorem at a concrete configuration. -/
theorem close_all_but_spec_witness :
    ((0 : Int) ≤ 6 ∧ ∀ k ∈ [(2 : Int), 4], 0 ≤ k ∧ k < 6)
    ∧ ((3 : Int) ∈ close_all_but 6 [2, 4]
      ↔ (0 ≤ (3 : Int) ∧ (3 : Int) < 6 ∧ (3 : Int) ∉ [(2 : Int), 4])) :=
  ⟨⟨by decide, by decide⟩, close_all_but_spec 6 [2, 4] 3 (by decide) (by decide)⟩

/-! ## Fork protocol -/

/-- Claim C1 (code bug): the duplicated worker replies `str(os.P_PID)` — the
constant `1` — instead of its own pid, so for a fork whose child has pid 4242
the client built by `fork_client` stores pid `1`, not `4242`. -/
theorem fork_returns_constant_not_pid :
    fork_client_stored_pid 4242 = some 1 ∧ fork_client_stored_pid 4242 ≠ some 4242 := by
  constructor
  · decide
  · decide

end Minrpc
